import Mathlib

/-!
Verification of the novel-generation backend (orchestrator, memory layer,
store clients) against its natural-language specification.

The JavaScript source is shallowly embedded: pure functions become Lean
functions, stateful code threads an explicit state, awaited network calls
are recorded in an explicit event trace, machine integers are `Int`/`Nat`,
and fallible code returns `Option`/`Except`.  External engines (the vector
database, the embedding provider) are modelled from their documented
interfaces where noted.
-/

set_option maxRecDepth 200000
set_option linter.unusedVariables false

/-! ## A small model of JavaScript values

Request bodies, cached records and graph-node property bags are JSON-like
JavaScript values.  `JVal.jundefined` models `undefined` (a missing property),
`jnull` models `null`.  Numbers are modelled as exact integers: every
numeric literal appearing in the embedded code paths is integral, and no
claim depends on floating-point behaviour. -/

inductive JVal where
  | jundefined : JVal
  | jnull : JVal
  | jbool : Bool → JVal
  | jint : Int → JVal
  | jstr : String → JVal
  | jarr : List JVal → JVal
  | jobj : List (String × JVal) → JVal

/-- JavaScript truthiness: `undefined`, `null`, `false`, `0` and `''` are
falsy; every object and array (even empty) is truthy. -/
def jsTruthy : JVal → Bool
  | .jundefined => false
  | .jnull => false
  | .jbool b => b
  | .jint n => n != 0
  | .jstr s => s != ("")
  | .jarr _ => true
  | .jobj _ => true

/-- `a || b` on JavaScript values. -/
def jsOr (a b : JVal) : JVal := if jsTruthy a then a else b

mutual

/-- `String(v)` coercion.  Arrays join their elements with `,` where
`null`/`undefined` elements render as the empty string; plain objects
render as `[object Object]`. -/
def jsToString : JVal → String
  | .jundefined => ("undefined")
  | .jnull => ("null")
  | .jbool b => if b then ("true") else ("false")
  | .jint n => toString n
  | .jstr s => s
  | .jarr xs => String.intercalate (",") (jsToStringElems xs)
  | .jobj _ => ("[object Object]")

/-- Array elements under `toString`: `null` and `undefined` render empty. -/
def jsToStringElems : List JVal → List String
  | [] => []
  | .jundefined :: vs => ("") :: jsToStringElems vs
  | .jnull :: vs => ("") :: jsToStringElems vs
  | v :: vs => jsToString v :: jsToStringElems vs

end

/-- The whitespace characters `parseInt` skips (ASCII subset). -/
def jsWhitespace (c : Char) : Bool :=
  c = ' ' ∨ c = '\t' ∨ c = '\n' ∨ c = '\r' ∨ c = '\x0b' ∨ c = '\x0c'

/-- `s.trim()` (ASCII whitespace set; the claims exercise no exotic
Unicode whitespace). -/
def jsTrim (s : String) : String :=
  String.mk (((s.toList.dropWhile jsWhitespace).reverse.dropWhile jsWhitespace).reverse)

def isDecDigit (c : Char) : Bool := '0' ≤ c ∧ c ≤ '9'

def isHexDigitJS (c : Char) : Bool :=
  ('0' ≤ c ∧ c ≤ '9') ∨ ('a' ≤ c ∧ c ≤ 'f') ∨ ('A' ≤ c ∧ c ≤ 'F')

def hexDigitVal (c : Char) : Nat :=
  if '0' ≤ c ∧ c ≤ '9' then c.toNat - '0'.toNat
  else if 'a' ≤ c ∧ c ≤ 'f' then c.toNat - 'a'.toNat + 10
  else if 'A' ≤ c ∧ c ≤ 'F' then c.toNat - 'A'.toNat + 10
  else 0

def natFromDecDigits (ds : List Char) : Nat :=
  ds.foldl (fun a c => a * 10 + (c.toNat - '0'.toNat)) 0

def natFromHexDigits (ds : List Char) : Nat :=
  ds.foldl (fun a c => a * 16 + hexDigitVal c) 0

/-- `parseInt(s)` (radix unspecified): skip leading whitespace, optional
sign, optional `0x`/`0X` hex prefix, then the maximal digit prefix;
no digits means `NaN`, modelled as `none`. -/
def parseIntStr (s : String) : Option Int :=
  let cs := s.toList.dropWhile jsWhitespace
  let signed : Int × List Char :=
    match cs with
    | '-' :: t => (-1, t)
    | '+' :: t => (1, t)
    | _ => (1, cs)
  let sign := signed.1
  let body := signed.2
  match body with
  | '0' :: x :: t =>
      if x = 'x' ∨ x = 'X' then
        let ds := t.takeWhile isHexDigitJS
        if ds = [] then none else some (sign * (natFromHexDigits ds : Nat))
      else
        some (sign * (natFromDecDigits (('0' :: x :: t).takeWhile isDecDigit) : Nat))
  | _ =>
      let ds := body.takeWhile isDecDigit
      if ds = [] then none else some (sign * (natFromDecDigits ds : Nat))

/-- `parseInt(v)` first coerces its argument to a string. -/
def parseIntJS (v : JVal) : Option Int := parseIntStr (jsToString v)

/-! ## Request Orchestrator: validation (orchestrator.js,
`NovelOrchestrator.validateNovelGenerationRequest`)

A request body is a property bag: missing properties read as `undefined`.
The function is pure — it performs no store or provider call — and throws
(`Except.error`) on the first violated rule, in source order. -/

structure ValidatedRequest where
  novelId : String
  chapterNumber : Int
  focusElements : String
  stylePreference : String
  mood : String
  requestId : String
  callbackUrl : String
  timestamp : String
deriving DecidableEq, Repr

def requiredGenFields : List String :=
  [("novelId"), ("chapterNumber"), ("focusElements"), ("stylePreference"), ("mood")]

def validateNovelGenerationRequest (body : String → JVal) (now : String) :
    Except String ValidatedRequest :=
  let missingFields := requiredGenFields.filter (fun f => !jsTruthy (body f))
  if missingFields ≠ [] then
    .error (("Missing required fields: ") ++ String.intercalate (", ") missingFields)
  else
    let novelId := jsTrim (jsToString (body ("novelId")))
    let chapterNumber := parseIntJS (body ("chapterNumber"))
    let focusElements := jsTrim (jsToString (body ("focusElements")))
    let stylePreference := jsTrim (jsToString (body ("stylePreference")))
    let mood := jsTrim (jsToString (body ("mood")))
    let requestId := jsTrim (jsToString (jsOr (body ("requestId")) (.jstr (""))))
    let callbackUrl := jsTrim (jsToString (jsOr (body ("callbackUrl")) (.jstr (""))))
    match chapterNumber with
    | none => .error ("chapterNumber must be a positive integer")
    | some n =>
      if n < 1 then .error ("chapterNumber must be a positive integer")
      else if novelId.length < 3 then .error ("novelId must be at least 3 characters")
      else if callbackUrl = ("") then .error ("callbackUrl is required from backend")
      else .ok {
        novelId := novelId,
        chapterNumber := n,
        focusElements := focusElements,
        stylePreference := stylePreference,
        mood := mood,
        requestId := requestId,
        callbackUrl := callbackUrl,
        timestamp := now }

/-- The sanitized request the validator returns when every rule passes. -/
def sanitizedRequest (body : String → JVal) (now : String) : ValidatedRequest :=
  { novelId := jsTrim (jsToString (body ("novelId"))),
    chapterNumber := (parseIntJS (body ("chapterNumber"))).getD 0,
    focusElements := jsTrim (jsToString (body ("focusElements"))),
    stylePreference := jsTrim (jsToString (body ("stylePreference"))),
    mood := jsTrim (jsToString (body ("mood"))),
    requestId := jsTrim (jsToString (jsOr (body ("requestId")) (.jstr ("")))),
    callbackUrl := jsTrim (jsToString (jsOr (body ("callbackUrl")) (.jstr ("")))),
    timestamp := now }

theorem validate_filter_nil (body : String → JVal) :
    (requiredGenFields.filter (fun f => !jsTruthy (body f)) = []) ↔
      ∀ f ∈ requiredGenFields, jsTruthy (body f) := by
  simp [List.filter_eq_nil_iff]

/-- C6 (amended): the validator accepts exactly the bodies in which the five
required fields are truthy, `parseInt` of `chapterNumber` is a number `≥ 1`,
the trimmed `novelId` has at least 3 characters and the trimmed
`callbackUrl` is non-empty; an accepted body yields the sanitized request.
The validator is a pure function of the body: it performs no store or
provider call.  Non-integer `chapterNumber` inputs such as the string
`"2.9"` are truncated by `parseInt` and accepted, not rejected. -/
theorem validateNovelGenerationRequest_spec (body : String → JVal) (now : String) :
    ((∃ v, validateNovelGenerationRequest body now = Except.ok v) ↔
      ((∀ f ∈ requiredGenFields, jsTruthy (body f)) ∧
       (∃ n, parseIntJS (body ("chapterNumber")) = some n ∧ 1 ≤ n) ∧
       3 ≤ (jsTrim (jsToString (body ("novelId")))).length ∧
       jsTrim (jsToString (jsOr (body ("callbackUrl")) (.jstr ("")))) ≠ ("")))
    ∧ (∀ v, validateNovelGenerationRequest body now = Except.ok v →
        v = sanitizedRequest body now) := by
  rw [← validate_filter_nil]
  unfold validateNovelGenerationRequest
  by_cases hms : requiredGenFields.filter (fun f => !jsTruthy (body f)) = []
  · cases hpi : parseIntJS (body ("chapterNumber")) with
    | none => simp [hms, hpi]
    | some n =>
      by_cases hn : n < 1
      · simp [hms, hpi, hn]
      · by_cases hid : (jsTrim (jsToString (body ("novelId")))).length < 3
        · simp [hms, hpi, hn, hid]
        · by_cases hcb : jsTrim (jsToString (jsOr (body ("callbackUrl")) (.jstr ("")))) = ("")
          · simp [hms, hpi, hn, hid, hcb]
          · simp [hms, hpi, hn, hid, hcb, sanitizedRequest]
            omega
  · simp [hms]

/-- A generation request whose `chapterNumber` is the string `"2.9"` —
not a positive integer. -/
def fractionalChapterBody : String → JVal := fun f =>
  if f = ("novelId") then .jstr ("abcd")
  else if f = ("chapterNumber") then .jstr ("2.9")
  else if f = ("focusElements") then .jstr ("fx")
  else if f = ("stylePreference") then .jstr ("sp")
  else if f = ("mood") then .jstr ("md")
  else if f = ("callbackUrl") then .jstr ("http://cb.example")
  else .jundefined

/-- C6, counterexample to the claim as stated: a request whose
`chapterNumber` is `"2.9"` — not a positive integer — is not rejected:
the validator truncates it with `parseInt` and accepts the request with
`chapterNumber = 2`. -/
theorem validateNovelGenerationRequest_accepts_fractional :
    validateNovelGenerationRequest fractionalChapterBody ("T0") =
      Except.ok { novelId := ("abcd"), chapterNumber := 2, focusElements := ("fx"),
                  stylePreference := ("sp"), mood := ("md"), requestId := (""),
                  callbackUrl := ("http://cb.example"), timestamp := ("T0") } := rfl

/-- C6, witness: a concrete well-formed body is accepted and sanitized, and a
concrete body with `chapterNumber = 0` is rejected, by the main theorem. -/
theorem validateNovelGenerationRequest_spec_witness :
    (∃ v, validateNovelGenerationRequest fractionalChapterBody ("T0") = Except.ok v) ∧
    (∀ v, validateNovelGenerationRequest fractionalChapterBody ("T0") = Except.ok v →
      v = sanitizedRequest fractionalChapterBody ("T0")) :=
  ⟨(validateNovelGenerationRequest_spec fractionalChapterBody ("T0")).1.mpr
      ⟨by decide, ⟨2, by decide, by decide⟩, by decide, by decide⟩,
    (validateNovelGenerationRequest_spec fractionalChapterBody ("T0")).2⟩

/-! ## Graph Store Client (neo4jService.js, database.js)

The graph database engine is external; what the repository owns are the
Cypher queries.  A `GraphDB` models the graph reachable from a novel id:
its node, `HAS_CHARACTER`/`HAS_LOCATION`/`HAS_CHAPTER`/`HAS_WORLD_STATE`/
`RELATED_TO` neighbours.  `collect(DISTINCT x)` over the rows of the
cartesian product of `OPTIONAL MATCH`es is the deduplicated list of
matched nodes (`null` rows contribute nothing), and `[0..k]` is the Cypher
list slice — indices `0` to `k-1`, i.e. `List.take k`. -/

structure CharNode where
  id : String
  name : String
  description : String
deriving DecidableEq, Repr

structure LocNode where
  id : String
  name : String
  description : String
deriving DecidableEq, Repr

structure ChapterNode where
  number : Int
  title : String
  content : String
deriving DecidableEq, Repr

/-- A node reached by `RELATED_TO`; Neo4j `DISTINCT` compares node
identity, modelled by an identity key. -/
structure RelNode where
  key : String
deriving DecidableEq, Repr

structure GraphDB where
  novel : String → Option JVal
  characters : String → List CharNode
  locations : String → List LocNode
  chapters : String → List ChapterNode
  worldStateNode : String → Option JVal
  related : String → List RelNode

/-- Result shape of `Neo4jService.getNovelContext`. -/
structure NovelContext where
  novel : JVal
  characters : List CharNode
  locations : List LocNode
  chapters : List ChapterNode
  worldState : Option JVal

/-- `Neo4jService.getNovelContext(novelId, chapterNumber = null)`:
`MATCH (n:Novel {id})` with optional character/location/chapter/world-state
matches; `characters` is `collect(DISTINCT c)[0..20]`, `locations` is
`collect(DISTINCT l)[0..10]`; the chapter `WHERE` clause is interpolated
only when `chapterNumber` is truthy. -/
def getNovelContext (db : GraphDB) (novelId : String) (chapterNumber : Option Int) :
    Option NovelContext :=
  match db.novel novelId with
  | none => none
  | some n =>
    let chapterFilterOn : Bool :=
      match chapterNumber with
      | some k => k != 0
      | none => false
    some {
      novel := n,
      characters := ((db.characters novelId).dedup).take 20,
      locations := ((db.locations novelId).dedup).take 10,
      chapters :=
        if chapterFilterOn then
          (((db.chapters novelId).filter
              (fun ch => ch.number = chapterNumber.getD 0)).dedup)
        else ((db.chapters novelId).dedup),
      worldState := db.worldStateNode novelId }

/-- Result shape of `DatabaseService.fetchNovelContext`. -/
structure FetchedContext where
  novel : JVal
  characters : List CharNode
  locations : List LocNode
  chapter : Option ChapterNode
  related : List RelNode

/-- `DatabaseService.fetchNovelContext(novelId, chapterNumber)` (the HTTP
Cypher variant): `characters` is `collect(DISTINCT c)[0..10]`, `locations`
is `collect(DISTINCT l)[0..5]`, the chapter is matched by exact number
(first row), `related` is `collect(DISTINCT r)[0..5]`. -/
def fetchNovelContext (db : GraphDB) (novelId : String) (chapterNumber : Int) :
    Option FetchedContext :=
  match db.novel novelId with
  | none => none
  | some n =>
    some {
      novel := n,
      characters := ((db.characters novelId).dedup).take 10,
      locations := ((db.locations novelId).dedup).take 5,
      chapter := (db.chapters novelId).find? (fun ch => ch.number = chapterNumber),
      related := ((db.related novelId).dedup).take 5 }

/-- C1: both graph-store context reads return at most 20 characters and at
most 10 locations, regardless of how many exist in the graph. -/
theorem getNovelContext_bounded (db : GraphDB) (novelId : String) :
    (∀ chapterNumber ctx, getNovelContext db novelId chapterNumber = some ctx →
      ctx.characters.length ≤ 20 ∧ ctx.locations.length ≤ 10)
    ∧ (∀ chapterNumber ctx, fetchNovelContext db novelId chapterNumber = some ctx →
      ctx.characters.length ≤ 20 ∧ ctx.locations.length ≤ 10) := by
  constructor
  · intro chapterNumber ctx h
    unfold getNovelContext at h
    cases hn : db.novel novelId with
    | none => rw [hn] at h; exact absurd h (by simp)
    | some n =>
      rw [hn] at h
      simp only [Option.some.injEq] at h
      subst h
      constructor
      · exact le_trans (List.length_take_le _ _) (by norm_num)
      · exact le_trans (List.length_take_le _ _) (by norm_num)
  · intro chapterNumber ctx h
    unfold fetchNovelContext at h
    cases hn : db.novel novelId with
    | none => rw [hn] at h; exact absurd h (by simp)
    | some n =>
      rw [hn] at h
      simp only [Option.some.injEq] at h
      subst h
      constructor
      · exact le_trans (List.length_take_le _ _) (by norm_num)
      · exact le_trans (List.length_take_le _ _) (by norm_num)

/-- A novel with 50 characters and 20 locations (the spec's stress case). -/
def crowdedDB : GraphDB :=
  { novel := fun v => if v = ("n1") then some (.jobj [(("id"), .jstr ("n1"))]) else none,
    characters := fun v =>
      if v = ("n1") then
        (List.range 50).map (fun i => { id := toString i, name := ("c"), description := ("") })
      else [],
    locations := fun v =>
      if v = ("n1") then
        (List.range 20).map (fun i => { id := toString i, name := ("l"), description := ("") })
      else [],
    chapters := fun _ => [],
    worldStateNode := fun _ => none,
    related := fun _ => [] }

/-- C1, witness: on the 50-character/20-location novel both reads succeed
and the bound theorem applies to their outputs. -/
theorem getNovelContext_bounded_witness :
    (∃ ctx, getNovelContext crowdedDB ("n1") none = some ctx ∧
      ctx.characters.length ≤ 20 ∧ ctx.locations.length ≤ 10) ∧
    (∃ ctx, fetchNovelContext crowdedDB ("n1") 1 = some ctx ∧
      ctx.characters.length ≤ 20 ∧ ctx.locations.length ≤ 10) := by
  have h := getNovelContext_bounded crowdedDB ("n1")
  obtain ⟨ctx₁, h₁⟩ : ∃ ctx, getNovelContext crowdedDB ("n1") none = some ctx := ⟨_, rfl⟩
  obtain ⟨ctx₂, h₂⟩ : ∃ ctx, fetchNovelContext crowdedDB ("n1") 1 = some ctx := ⟨_, rfl⟩
  exact ⟨⟨ctx₁, h₁, h.1 none ctx₁ h₁⟩, ⟨ctx₂, h₂, h.2 1 ctx₂ h₂⟩⟩

/-! ## Vector Store Client: text chunking (upload.js, `PineconeService.chunkText`)

The character indices of the JS loop are embedded directly.  The loop
consumes `fuel`; `none` models non-termination (insufficient fuel), and the
fuel budget `length + 1` is sufficient whenever the start index strictly
advances each iteration.  Within every parameter range stated by a theorem
below, `end - overlap` never goes below zero, so natural subtraction
coincides with the JavaScript arithmetic. -/

/-- `text.lastIndexOf(c, j)`: the largest index `i ≤ j` holding `c`
(`none` models `-1`). -/
def lastIndexOfLe (cs : List Char) (c : Char) (j : Nat) : Option Nat :=
  (((cs.take (j + 1)).enum.filter (fun p => p.2 = c)).map (fun p => p.1)).max?

/-- `Math.max` over two `lastIndexOf` results, `none` standing for `-1`. -/
def maxIdx : Option Nat → Option Nat → Option Nat
  | some a, some b => some (max a b)
  | some a, none => some a
  | none, some b => some b
  | none, none => none

/-- One iteration's cut point: `end = start + maxChunkSize`, moved back to
just after the nearest sentence terminator (`.`) or newline when that break
point lies beyond `start + maxChunkSize * 0.5` (`2*b > 2*start + max` is
the exact comparison), and only while `end < text.length`. -/
def chunkStepEnd (cs : List Char) (maxChunkSize : Nat) (start : Nat) : Nat :=
  let e0 := start + maxChunkSize
  if e0 < cs.length then
    let lastPeriod := lastIndexOfLe cs '.' e0
    let lastNewline := lastIndexOfLe cs '\n' e0
    match maxIdx lastPeriod lastNewline with
    | some b => if 2 * b > 2 * start + maxChunkSize then b + 1 else e0
    | none => e0
  else e0

/-- The next loop start: `start = end - overlap`. -/
def chunkNext (cs : List Char) (maxChunkSize overlap start : Nat) : Nat :=
  chunkStepEnd cs maxChunkSize start - overlap

/-- `text.slice(start, end).trim()`. -/
def sliceTrimmed (cs : List Char) (p : Nat × Nat) : String :=
  jsTrim (String.mk ((cs.drop p.1).take (p.2 - p.1)))

def chunkTextAux (cs : List Char) (maxChunkSize overlap : Nat) :
    Nat → Nat → Option (List String)
  | fuel, start =>
    if start < cs.length then
      match fuel with
      | 0 => none
      | fuel + 1 =>
        let e := chunkStepEnd cs maxChunkSize start
        match chunkTextAux cs maxChunkSize overlap fuel (e - overlap) with
        | some rest => some (sliceTrimmed cs (start, e) :: rest)
        | none => none
    else some []

/-- `PineconeService.chunkText(text, maxChunkSize = 500, overlap = 50)`:
text no longer than the budget is returned as the single chunk `[text]`
(not trimmed); otherwise the loop emits trimmed slices and finally drops
empty chunks. -/
def chunkText (text : String) (maxChunkSize overlap : Nat) : Option (List String) :=
  if text.length ≤ maxChunkSize then some [text]
  else
    (chunkTextAux text.toList maxChunkSize overlap (text.length + 1) 0).map
      (fun chunks => chunks.filter (fun c => c.length > 0))

/-- The `(start, end)` slice intervals the loop walks through. -/
def chunkIntervalsAux (cs : List Char) (maxChunkSize overlap : Nat) :
    Nat → Nat → Option (List (Nat × Nat))
  | fuel, start =>
    if start < cs.length then
      match fuel with
      | 0 => none
      | fuel + 1 =>
        let e := chunkStepEnd cs maxChunkSize start
        match chunkIntervalsAux cs maxChunkSize overlap fuel (e - overlap) with
        | some rest => some ((start, e) :: rest)
        | none => none
    else some []

def chunkIntervals (text : String) (maxChunkSize overlap : Nat) :
    Option (List (Nat × Nat)) :=
  chunkIntervalsAux text.toList maxChunkSize overlap (text.length + 1) 0

theorem chunkNext_advance (cs : List Char) (maxChunkSize overlap start : Nat)
    (hmax : 0 < maxChunkSize) :
    2 * chunkNext cs maxChunkSize overlap start + 2 * overlap >
      2 * start + maxChunkSize := by
  unfold chunkNext chunkStepEnd
  dsimp only
  split
  · split
    · split
      · omega
      · omega
    · omega
  · omega

theorem chunkNext_progress (cs : List Char) (maxChunkSize overlap start : Nat)
    (hov : 2 * overlap < maxChunkSize) :
    start < chunkNext cs maxChunkSize overlap start := by
  have h := chunkNext_advance cs maxChunkSize overlap start (by omega)
  omega

theorem chunkTextAux_total (cs : List Char) (maxChunkSize overlap : Nat)
    (hov : 2 * overlap < maxChunkSize) :
    ∀ fuel start, cs.length ≤ start + fuel →
      (chunkTextAux cs maxChunkSize overlap fuel start).isSome := by
  intro fuel
  induction fuel with
  | zero =>
    intro start hs
    unfold chunkTextAux
    have : ¬ start < cs.length := by omega
    simp [this]
  | succ fuel ih =>
    intro start hs
    unfold chunkTextAux
    by_cases hlt : start < cs.length
    · have hnext := chunkNext_progress cs maxChunkSize overlap start hov
      unfold chunkNext at hnext
      have hrest := ih (chunkStepEnd cs maxChunkSize start - overlap) (by omega)
      simp only [hlt, if_true]
      cases hr : chunkTextAux cs maxChunkSize overlap fuel
          (chunkStepEnd cs maxChunkSize start - overlap) with
      | none => rw [hr] at hrest; simp at hrest
      | some rest => simp [hr]
    · simp [hlt]

theorem chunkTextAux_eq_intervals (cs : List Char) (maxChunkSize overlap : Nat) :
    ∀ fuel start,
      chunkTextAux cs maxChunkSize overlap fuel start =
        (chunkIntervalsAux cs maxChunkSize overlap fuel start).map
          (List.map (sliceTrimmed cs)) := by
  intro fuel
  induction fuel with
  | zero =>
    intro start
    unfold chunkTextAux chunkIntervalsAux
    by_cases hlt : start < cs.length <;> simp [hlt]
  | succ fuel ih =>
    intro start
    unfold chunkTextAux chunkIntervalsAux
    by_cases hlt : start < cs.length
    · simp only [hlt, if_true]
      rw [ih]
      cases hr : chunkIntervalsAux cs maxChunkSize overlap fuel
          (chunkStepEnd cs maxChunkSize start - overlap) <;> simp
    · simp [hlt]

theorem chunkIntervalsAux_chain (cs : List Char) (maxChunkSize overlap : Nat) :
    ∀ fuel start l,
      chunkIntervalsAux cs maxChunkSize overlap fuel start = some l →
      (List.Chain' (fun p q => q.1 = p.2 - overlap) l ∧
        (∀ p ∈ l.head?, p.1 = start)) := by
  intro fuel
  induction fuel with
  | zero =>
    intro start l h
    unfold chunkIntervalsAux at h
    by_cases hlt : start < cs.length <;> simp [hlt] at h
    subst h
    simp
  | succ fuel ih =>
    intro start l h
    unfold chunkIntervalsAux at h
    by_cases hlt : start < cs.length
    · simp only [hlt, if_true] at h
      cases hr : chunkIntervalsAux cs maxChunkSize overlap fuel
          (chunkStepEnd cs maxChunkSize start - overlap) with
      | none => rw [hr] at h; exact absurd h (by simp)
      | some rest =>
        rw [hr] at h
        simp only [Option.some.injEq] at h
        subst h
        obtain ⟨hchain, hhead⟩ := ih _ rest hr
        refine ⟨?_, by simp⟩
        cases rest with
        | nil => simp
        | cons q t =>
          refine List.Chain'.cons ?_ hchain
          have := hhead q (by simp)
          omega
    · simp [hlt] at h
      subst h
      simp

theorem chunkIntervalsAux_cover (cs : List Char) (maxChunkSize overlap : Nat) :
    ∀ fuel start l,
      chunkIntervalsAux cs maxChunkSize overlap fuel start = some l →
      ∀ k, start ≤ k → k < cs.length → ∃ p ∈ l, p.1 ≤ k ∧ k < p.2 := by
  intro fuel
  induction fuel with
  | zero =>
    intro start l h k hk hklen
    unfold chunkIntervalsAux at h
    by_cases hlt : start < cs.length <;> simp [hlt] at h
    omega
  | succ fuel ih =>
    intro start l h k hk hklen
    unfold chunkIntervalsAux at h
    by_cases hlt : start < cs.length
    · simp only [hlt, if_true] at h
      cases hr : chunkIntervalsAux cs maxChunkSize overlap fuel
          (chunkStepEnd cs maxChunkSize start - overlap) with
      | none => rw [hr] at h; exact absurd h (by simp)
      | some rest =>
        rw [hr] at h
        simp only [Option.some.injEq] at h
        subst h
        by_cases hke : k < chunkStepEnd cs maxChunkSize start
        · exact ⟨(start, chunkStepEnd cs maxChunkSize start), by simp, hk, hke⟩
        · obtain ⟨p, hp, hp1, hp2⟩ :=
            ih (chunkStepEnd cs maxChunkSize start - overlap) rest hr k (by omega) hklen
          exact ⟨p, by simp [hp], hp1, hp2⟩
    · simp [hlt] at h
      omega

/-- C5 (amended): text within the chunk budget is returned as a single
chunk equal to the input itself (the short path does not trim); for longer
text, with the overlap below half the budget (the regime in which the loop
terminates, including the configured `(500, 50)`), each interval's start is
the previous interval's end minus the declared overlap, the first interval
starts at 0, and the intervals jointly cover every character index of the
input with no gaps; the returned chunks are exactly the trimmed slices of
those intervals with empty chunks dropped. -/
theorem chunkText_spec :
    (∀ (text : String) (maxChunkSize overlap : Nat),
      text.length ≤ maxChunkSize → chunkText text maxChunkSize overlap = some [text])
    ∧ (∀ (text : String) (maxChunkSize overlap : Nat),
      2 * overlap < maxChunkSize → maxChunkSize < text.length →
      ∃ l, chunkIntervals text maxChunkSize overlap = some l ∧
        List.Chain' (fun p q => q.1 = p.2 - overlap) l ∧
        (∀ p ∈ l.head?, p.1 = 0) ∧
        (∀ k, k < text.length → ∃ p ∈ l, p.1 ≤ k ∧ k < p.2) ∧
        chunkText text maxChunkSize overlap =
          some ((l.map (sliceTrimmed text.toList)).filter (fun c => c.length > 0))) := by
  constructor
  · intro text maxChunkSize overlap h
    unfold chunkText
    simp [h]
  · intro text maxChunkSize overlap hov hlen
    have hlen' : text.toList.length = text.length := rfl
    have htotal := chunkTextAux_total text.toList maxChunkSize overlap hov
      (text.length + 1) 0 (by omega)
    rw [chunkTextAux_eq_intervals] at htotal
    cases hI : chunkIntervalsAux text.toList maxChunkSize overlap (text.length + 1) 0 with
    | none => rw [hI] at htotal; simp at htotal
    | some l =>
      obtain ⟨hchain, hhead⟩ := chunkIntervalsAux_chain text.toList maxChunkSize overlap
        (text.length + 1) 0 l hI
      refine ⟨l, hI, hchain, hhead, ?_, ?_⟩
      · intro k hk
        exact chunkIntervalsAux_cover text.toList maxChunkSize overlap
          (text.length + 1) 0 l hI k (by omega) (by omega)
      · unfold chunkText
        have : ¬ text.length ≤ maxChunkSize := by omega
        simp only [this, if_false]
        rw [chunkTextAux_eq_intervals, hI]
        simp

/-- C5, counterexample to the claim as stated: for the three-character
input `" a "` (within the 500-character budget) `chunkText` returns the
single chunk `" a "`, the untrimmed input — not the trimmed input `"a"`. -/
theorem chunkText_short_not_trimmed :
    chunkText (" a ") 500 50 = some [(" a ")] ∧
    jsTrim (" a ") = ("a") ∧ (" a ") ≠ ("a") := by
  refine ⟨rfl, rfl, by decide⟩

/-- C5, witness: the theorem applied to a short input and to a concrete
23-character input with budget 10 and overlap 2. -/
theorem chunkText_spec_witness :
    chunkText ("hello") 500 50 = some [("hello")] ∧
    (∃ l, chunkIntervals ("abcdef.abcdefghijklmnop") 10 2 = some l ∧
      List.Chain' (fun p q => q.1 = p.2 - 2) l ∧
      (∀ p ∈ l.head?, p.1 = 0) ∧
      (∀ k, k < ("abcdef.abcdefghijklmnop").length → ∃ p ∈ l, p.1 ≤ k ∧ k < p.2) ∧
      chunkText ("abcdef.abcdefghijklmnop") 10 2 =
        some ((l.map (sliceTrimmed ("abcdef.abcdefghijklmnop").toList)).filter
          (fun c => c.length > 0))) :=
  ⟨chunkText_spec.1 ("hello") 500 50 (by decide),
   chunkText_spec.2 ("abcdef.abcdefghijklmnop") 10 2 (by decide) (by decide)⟩

/-- C10: `chunkText` terminates for every input whenever the overlap is
less than half of `maxChunkSize` — in particular for the `(500, 50)`
arguments used by `storeChapterContent` — because each loop iteration
advances the start index by more than `maxChunkSize/2 - overlap`
characters (stated integrally: `2*next + 2*overlap > 2*start + max`);
for overlap at or above half the chunk size advance is no longer
guaranteed: with `maxChunkSize = 10`, `overlap = 7` the start index can
stay put and the loop never terminates. -/
theorem chunkText_terminates :
    (∀ (text : String) (maxChunkSize overlap : Nat),
      2 * overlap < maxChunkSize → (chunkText text maxChunkSize overlap).isSome)
    ∧ (∀ (cs : List Char) (maxChunkSize overlap start : Nat), 0 < maxChunkSize →
      2 * chunkNext cs maxChunkSize overlap start + 2 * overlap >
        2 * start + maxChunkSize)
    ∧ (chunkNext ("abcdef.abcdefghijk").toList 10 7 0 = 0 ∧
       chunkText ("abcdef.abcdefghijk") 10 7 = none) := by
  refine ⟨?_, ?_, rfl, rfl⟩
  · intro text maxChunkSize overlap hov
    unfold chunkText
    by_cases h : text.length ≤ maxChunkSize
    · simp [h]
    · simp only [h, if_false]
      have := chunkTextAux_total text.toList maxChunkSize overlap hov
        (text.length + 1) 0 (by
          have : text.toList.length = text.length := rfl
          omega)
      cases hr : chunkTextAux text.toList maxChunkSize overlap (text.length + 1) 0 with
      | none => rw [hr] at this; simp at this
      | some chunks => simp
  · intro cs maxChunkSize overlap start hmax
    exact chunkNext_advance cs maxChunkSize overlap start hmax

/-- C10, witness: termination at the configured `(500, 50)` on a concrete
600-character text, and the advance bound at a concrete state. -/
theorem chunkText_terminates_witness :
    (chunkText (String.mk (List.replicate 600 'a')) 500 50).isSome ∧
    2 * chunkNext [] 10 3 0 + 6 > 10 :=
  ⟨chunkText_terminates.1 (String.mk (List.replicate 600 'a')) 500 50 (by decide),
   chunkText_terminates.2.1 [] 10 3 0 (by decide)⟩

/-! ## AI Provider Client: evaluation-response parsing (aiModelService.js)

`_parseEvaluationResponse` extracts the region matched by the greedy regex
`/\x7b[\s\S]*\x7d/` — from the first opening brace to the last closing
brace — and feeds it to `JSON.parse`.  `JSON.parse` is modelled by a
recursive-descent parser of the JSON grammar (`jsonParse`); numbers are
parsed to exact rationals (no claim consumes a parsed numeric value, so
float rounding is irrelevant); a `\uXXXX` escape outside the scalar range
maps to the replacement character. -/

def lcurly : Char := Char.ofNat 123
def rcurly : Char := Char.ofNat 125

inductive Json where
  | jnull : Json
  | jbool : Bool → Json
  | jnum : ℚ → Json
  | jstr : String → Json
  | jarr : List Json → Json
  | jobj : List (String × Json) → Json

/-- The region matched by the greedy `/\x7b[\s\S]*\x7d/`: from the first
opening brace to the last closing brace, provided the latter comes after
the former. -/
def extractJsonBlock (s : String) : Option String :=
  let cs := s.toList
  match cs.findIdx? (fun c => c = lcurly),
        (((cs.enum.filter (fun p => p.2 = rcurly)).map (fun p => p.1)).max?) with
  | some i, some j =>
      if i < j then some (String.mk ((cs.drop i).take (j - i + 1))) else none
  | _, _ => none

def jsonWs (c : Char) : Bool := c = ' ' ∨ c = '\t' ∨ c = '\n' ∨ c = '\r'

def skipWs (cs : List Char) : List Char := cs.dropWhile jsonWs

/-- Decode one `\uXXXX` payload; surrogate halves are combined by the
caller, a lone surrogate decodes to U+FFFD. -/
def charOfCode (n : Nat) : Char :=
  if n < 0xd800 ∨ (0xdfff < n ∧ n < 0x110000) then Char.ofNat n
  else Char.ofNat 0xfffd

def hex4 (a b c d : Char) : Option Nat :=
  if isHexDigitJS a ∧ isHexDigitJS b ∧ isHexDigitJS c ∧ isHexDigitJS d then
    some (((hexDigitVal a * 16 + hexDigitVal b) * 16 + hexDigitVal c) * 16 + hexDigitVal d)
  else none

def parseStringChars : Nat → List Char → Option (List Char × List Char)
  | 0, _ => none
  | fuel + 1, cs =>
    match cs with
    | [] => none
    | '"' :: rest => some ([], rest)
    | '\\' :: e :: rest =>
      let simpleEsc : Option Char :=
        if e = '"' then some '"'
        else if e = '\\' then some '\\'
        else if e = '/' then some '/'
        else if e = 'b' then some '\x08'
        else if e = 'f' then some '\x0c'
        else if e = 'n' then some '\n'
        else if e = 'r' then some '\r'
        else if e = 't' then some '\t'
        else none
      (match simpleEsc with
      | some c =>
        (match parseStringChars fuel rest with
        | some (tail, r) => some (c :: tail, r)
        | none => none)
      | none =>
        if e = 'u' then
          match rest with
          | a :: b :: c :: d :: rest2 =>
            (match hex4 a b c d with
            | some n =>
              -- a high surrogate followed by an escaped low surrogate
              -- combines into one scalar, as in JavaScript strings
              (match rest2 with
              | '\\' :: 'u' :: a2 :: b2 :: c2 :: d2 :: rest3 =>
                (match hex4 a2 b2 c2 d2 with
                | some m =>
                  if 0xd800 ≤ n ∧ n ≤ 0xdbff ∧ 0xdc00 ≤ m ∧ m ≤ 0xdfff then
                    (match parseStringChars fuel rest3 with
                    | some (tail, r) =>
                      some (Char.ofNat (0x10000 + (n - 0xd800) * 0x400 + (m - 0xdc00)) :: tail, r)
                    | none => none)
                  else
                    (match parseStringChars fuel rest2 with
                    | some (tail, r) => some (charOfCode n :: tail, r)
                    | none => none)
                | none => none)
              | _ =>
                (match parseStringChars fuel rest2 with
                | some (tail, r) => some (charOfCode n :: tail, r)
                | none => none))
            | none => none)
          | _ => none
        else none)
    | c :: rest =>
      if c.toNat < 0x20 then none
      else
        match parseStringChars fuel rest with
        | some (tail, r) => some (c :: tail, r)
        | none => none

/-- JSON number grammar: `-? (0 | [1-9][0-9]*) (. [0-9]+)? ([eE][+-]?[0-9]+)?`,
valued as an exact rational. -/
def parseJsonNumber (cs : List Char) : Option (ℚ × List Char) :=
  let signed : Bool × List Char :=
    match cs with
    | '-' :: t => (true, t)
    | _ => (false, cs)
  let neg := signed.1
  let afterSign := signed.2
  let intRes : Option (Nat × List Char) :=
    match afterSign with
    | '0' :: t => some (0, t)
    | c :: _ =>
      if isDecDigit c ∧ c ≠ '0' then
        let ds := afterSign.takeWhile isDecDigit
        some (natFromDecDigits ds, afterSign.drop ds.length)
      else none
    | [] => none
  match intRes with
  | none => none
  | some (ip, r1) =>
    let fracRes : Option (Nat × Nat × List Char) :=
      match r1 with
      | '.' :: t =>
        let ds := t.takeWhile isDecDigit
        if ds = [] then none else some (natFromDecDigits ds, ds.length, t.drop ds.length)
      | _ => some (0, 0, r1)
    match fracRes with
    | none => none
    | some (fp, fl, r2) =>
      let expRes : Option (Bool × Nat × List Char) :=
        match r2 with
        | e :: t =>
          if e = 'e' ∨ e = 'E' then
            let signedE : Bool × List Char :=
              match t with
              | '-' :: t2 => (true, t2)
              | '+' :: t2 => (false, t2)
              | _ => (false, t)
            let ds := signedE.2.takeWhile isDecDigit
            if ds = [] then none
            else some (signedE.1, natFromDecDigits ds, signedE.2.drop ds.length)
          else some (false, 0, r2)
        | [] => some (false, 0, r2)
      match expRes with
      | none => none
      | some (eneg, ev, r3) =>
        let base : ℚ := (ip : ℚ) + (fp : ℚ) / ((10 : ℚ) ^ fl)
        let scaled : ℚ := if eneg then base / ((10 : ℚ) ^ ev) else base * ((10 : ℚ) ^ ev)
        some ((if neg then -scaled else scaled), r3)

mutual

def parseJsonValue : Nat → List Char → Option (Json × List Char)
  | 0, _ => none
  | fuel + 1, cs =>
    match cs with
    | [] => none
    | c :: rest =>
      if c = 'n' then
        match rest with
        | 'u' :: 'l' :: 'l' :: r => some (.jnull, r)
        | _ => none
      else if c = 't' then
        match rest with
        | 'r' :: 'u' :: 'e' :: r => some (.jbool true, r)
        | _ => none
      else if c = 'f' then
        match rest with
        | 'a' :: 'l' :: 's' :: 'e' :: r => some (.jbool false, r)
        | _ => none
      else if c = '"' then
        match parseStringChars (rest.length + 1) rest with
        | some (content, r) => some (.jstr (String.mk content), r)
        | none => none
      else if c = '[' then
        match skipWs rest with
        | ']' :: r => some (.jarr [], r)
        | cs2 =>
          match parseJsonValue fuel cs2 with
          | some (v, r1) =>
            (match parseArrayRest fuel (skipWs r1) with
            | some (vs, r2) => some (.jarr (v :: vs), r2)
            | none => none)
          | none => none
      else if c = lcurly then
        match skipWs rest with
        | q :: r =>
          if q = rcurly then some (.jobj [], r)
          else
            (match parseJsonMember fuel (q :: r) with
            | some (kv, r1) =>
              (match parseObjectRest fuel (skipWs r1) with
              | some (kvs, r2) => some (.jobj (kv :: kvs), r2)
              | none => none)
            | none => none)
        | [] => none
      else if c = '-' ∨ isDecDigit c then
        match parseJsonNumber cs with
        | some (q, r) => some (.jnum q, r)
        | none => none
      else none

def parseArrayRest : Nat → List Char → Option (List Json × List Char)
  | 0, _ => none
  | fuel + 1, cs =>
    match cs with
    | ']' :: r => some ([], r)
    | ',' :: r =>
      (match parseJsonValue fuel (skipWs r) with
      | some (v, r1) =>
        (match parseArrayRest fuel (skipWs r1) with
        | some (vs, r2) => some (v :: vs, r2)
        | none => none)
      | none => none)
    | _ => none

def parseJsonMember : Nat → List Char → Option ((String × Json) × List Char)
  | 0, _ => none
  | fuel + 1, cs =>
    match cs with
    | '"' :: rest =>
      (match parseStringChars (rest.length + 1) rest with
      | some (key, r1) =>
        (match skipWs r1 with
        | ':' :: r2 =>
          (match parseJsonValue fuel (skipWs r2) with
          | some (v, r3) => some ((String.mk key, v), r3)
          | none => none)
        | _ => none)
      | none => none)
    | _ => none

def parseObjectRest : Nat → List Char → Option (List (String × Json) × List Char)
  | 0, _ => none
  | fuel + 1, cs =>
    match cs with
    | c :: r =>
      if c = rcurly then some ([], r)
      else if c = ',' then
        (match parseJsonMember fuel (skipWs r) with
        | some (kv, r1) =>
          (match parseObjectRest fuel (skipWs r1) with
          | some (kvs, r2) => some (kv :: kvs, r2)
          | none => none)
        | none => none)
      else none
    | [] => none

end

/-- `JSON.parse(s)`: a complete JSON text — one value surrounded by
whitespace — or a parse failure (`none` models the thrown `SyntaxError`). -/
def jsonParse (s : String) : Option Json :=
  match parseJsonValue (4 * s.length + 4) (skipWs s.toList) with
  | some (v, rest) => if skipWs rest = [] then some v else none
  | none => none

/-- `response.split(' ').length`. -/
def spaceSplitCount : List Char → Nat
  | [] => 1
  | c :: rest => (if c = ' ' then 1 else 0) + spaceSplitCount rest

/-- The neutral fallback evaluation `_parseEvaluationResponse` builds when
no structured block is found: mid-range scores (7), generic feedback, the
response's space-split word count. -/
def defaultEvaluation (response : String) : Json :=
  .jobj [
    (("overallScore"), .jnum 7),
    (("scores"), .jobj [
      (("coherence"), .jnum 7),
      (("creativity"), .jnum 7),
      (("grammar"), .jnum 7),
      (("style"), .jnum 7),
      (("engagement"), .jnum 7)]),
    (("feedback"), .jobj [
      (("strengths"), .jarr [.jstr ("Content generated successfully")]),
      (("improvements"), .jarr [.jstr ("Could not parse detailed evaluation")]),
      (("summary"), .jstr ("Basic evaluation completed"))]),
    (("wordCount"), .jnum (spaceSplitCount response.toList)),
    (("readabilityLevel"), .jstr ("intermediate"))]

/-- `AIModelService._parseEvaluationResponse(response)`: if the brace-delimited region
regex matches, `JSON.parse` the block — a parse failure lands in the
`catch`, which rethrows `Failed to parse evaluation response`; only when no
block matches at all is the neutral fallback returned. -/
def parseEvaluationResponse (response : String) : Except String Json :=
  match extractJsonBlock response with
  | some block =>
    match jsonParse block with
    | some v => .ok v
    | none => .error ("Failed to parse evaluation response")
  | none => .ok (defaultEvaluation response)

structure EvalResponse where
  success : Bool
  evaluation : Json

/-- `AIModelService.evaluateText`, given the evaluator provider's response
content: parses it and wraps the result; an error thrown by the parser
propagates out of `evaluateText` (its `catch` rethrows). -/
def evaluateText (providerContent : String) : Except String EvalResponse :=
  match parseEvaluationResponse providerContent with
  | .ok ev => .ok { success := true, evaluation := ev }
  | .error e => .error e

/-- An evaluator response with a brace-delimited block that is not valid
JSON. -/
def malformedEvalResponse : String :=
  ("Score: ") ++ String.singleton lcurly ++ ("oops") ++ String.singleton rcurly

/-- C4, counterexample to the claim as stated: for an evaluator response
containing a brace-delimited block that fails to parse (`"Score: {oops}"`),
`_parseEvaluationResponse` — and hence `evaluateText` — throws
`Failed to parse evaluation response` instead of returning the neutral
default evaluation. -/
theorem evaluateText_throws_on_unparseable_block :
    evaluateText malformedEvalResponse =
      Except.error ("Failed to parse evaluation response") := rfl

/-- C4 (amended): when no brace-delimited block can be extracted at all,
the parser returns the neutral default evaluation (mid-range scores,
generic feedback) and `evaluateText` succeeds with it; but when a block is
extracted and `JSON.parse` fails on it, both throw
`Failed to parse evaluation response`. -/
theorem parseEvaluationResponse_spec :
    (∀ response, extractJsonBlock response = none →
      parseEvaluationResponse response = Except.ok (defaultEvaluation response) ∧
      evaluateText response =
        Except.ok { success := true, evaluation := defaultEvaluation response })
    ∧ (∀ response block, extractJsonBlock response = some block →
      jsonParse block = none →
      parseEvaluationResponse response =
        Except.error ("Failed to parse evaluation response") ∧
      evaluateText response = Except.error ("Failed to parse evaluation response")) := by
  constructor
  · intro response h
    unfold evaluateText parseEvaluationResponse
    rw [h]
    exact ⟨rfl, rfl⟩
  · intro response block hb hp
    unfold evaluateText parseEvaluationResponse
    rw [hb]
    simp only [hp]
    exact ⟨trivial, trivial⟩

/-- C4, witness: prose with no braces yields the default evaluation; the
malformed-block response throws — both by the main theorem at concrete
inputs. -/
theorem parseEvaluationResponse_spec_witness :
    (parseEvaluationResponse ("Good pacing and strong imagery overall") =
      Except.ok (defaultEvaluation ("Good pacing and strong imagery overall"))) ∧
    (parseEvaluationResponse malformedEvalResponse =
      Except.error ("Failed to parse evaluation response")) :=
  ⟨(parseEvaluationResponse_spec.1 ("Good pacing and strong imagery overall") rfl).1,
   (parseEvaluationResponse_spec.2 malformedEvalResponse
      (String.singleton lcurly ++ ("oops") ++ String.singleton rcurly) rfl rfl).1⟩

/-! ## Callback signing and verification (orchestrator.js `sendCallback`,
security.js `validateHMACSignature`)

`crypto.createHmac('sha256', secret)` is the standard HMAC-SHA256
construction over the UTF-8 bytes of secret and payload; SHA-256 is
implemented below (FIPS 180-4) and checked against the `"abc"` test
vector.  Bytes are `Nat`s below 256; 32-bit words are reduced
`% 2^32` explicitly. -/

def w32 (n : Nat) : Nat := n % 4294967296

def rotr32 (x n : Nat) : Nat := w32 ((x >>> n) ||| (x <<< (32 - n)))

def shaK : List Nat := [
  1116352408, 1899447441, 3049323471, 3921009573, 961987163,
  1508970993, 2453635748, 2870763221, 3624381080, 310598401,
  607225278, 1426881987, 1925078388, 2162078206, 2614888103,
  3248222580, 3835390401, 4022224774, 264347078, 604807628,
  770255983, 1249150122, 1555081692, 1996064986, 2554220882,
  2821834349, 2952996808, 3210313671, 3336571891, 3584528711,
  113926993, 338241895, 666307205, 773529912, 1294757372,
  1396182291, 1695183700, 1986661051, 2177026350, 2456956037,
  2730485921, 2820302411, 3259730800, 3345764771, 3516065817,
  3600352804, 4094571909, 275423344, 430227734, 506948616,
  659060556, 883997877, 958139571, 1322822218, 1537002063,
  1747873779, 1955562222, 2024104815, 2227730452, 2361852424,
  2428436474, 2756734187, 3204031479, 3329325298]

/-- Merkle–Damgård padding: `0x80`, zeros to 56 mod 64, 8-byte big-endian
bit length. -/
def padMsg (msg : List Nat) : List Nat :=
  let L := msg.length
  let padLen := (55 + 64 - (L % 64)) % 64 + 1
  let bitLen := 8 * L
  msg ++ (128 :: List.replicate (padLen - 1) 0) ++
    ((List.range 8).reverse.map (fun i => (bitLen >>> (8 * i)) % 256))

def bytesToWords : List Nat → List Nat
  | a :: b :: c :: d :: rest => (((a * 256 + b) * 256 + c) * 256 + d) :: bytesToWords rest
  | _ => []

def msgSchedule (ws : List Nat) : Nat → List Nat
  | 0 => ws
  | t + 1 =>
    let prev := msgSchedule ws t
    let g (i : Nat) : Nat := prev.getD (16 + t - i) 0
    let s0 := (rotr32 (g 15) 7) ^^^ (rotr32 (g 15) 18) ^^^ ((g 15) >>> 3)
    let s1 := (rotr32 (g 2) 17) ^^^ (rotr32 (g 2) 19) ^^^ ((g 2) >>> 10)
    prev ++ [w32 (g 16 + s0 + g 7 + s1)]

def compressStep (st : List Nat) (kt wt : Nat) : List Nat :=
  match st with
  | [a, b, c, d, e, f, g, h] =>
    let s1 := (rotr32 e 6) ^^^ (rotr32 e 11) ^^^ (rotr32 e 25)
    let ch := (e &&& f) ^^^ ((4294967295 - e) &&& g)
    let t1 := w32 (h + s1 + ch + kt + wt)
    let s0 := (rotr32 a 2) ^^^ (rotr32 a 13) ^^^ (rotr32 a 22)
    let maj := (a &&& b) ^^^ (a &&& c) ^^^ (b &&& c)
    let t2 := w32 (s0 + maj)
    [w32 (t1 + t2), a, b, c, w32 (d + t1), e, f, g]
  | st => st

def compressBlock (h : List Nat) (block : List Nat) : List Nat :=
  let ws := msgSchedule (bytesToWords block) 48
  let final := (List.range 64).foldl
    (fun st t => compressStep st (shaK.getD t 0) (ws.getD t 0)) h
  (h.zip final).map (fun p => w32 (p.1 + p.2))

def chunks64Aux : Nat → List Nat → List (List Nat)
  | 0, _ => []
  | _, [] => []
  | fuel + 1, x :: rest => ((x :: rest).take 64) :: chunks64Aux fuel ((x :: rest).drop 64)

def chunks64 (l : List Nat) : List (List Nat) := chunks64Aux l.length l

def shaH0 : List Nat := [
  1779033703, 3144134277, 1013904242, 2773480762, 1359893119,
  2600822924, 528734635, 1541459225]

def sha256 (msg : List Nat) : List Nat :=
  let hs := (chunks64 (padMsg msg)).foldl compressBlock shaH0
  hs.flatMap (fun w => [(w >>> 24) % 256, (w >>> 16) % 256, (w >>> 8) % 256, w % 256])

def utf8EncodeChar (n : Nat) : List Nat :=
  if n < 0x80 then [n]
  else if n < 0x800 then [0xc0 ||| (n >>> 6), 0x80 ||| (n &&& 63)]
  else if n < 0x10000 then
    [0xe0 ||| (n >>> 12), 0x80 ||| ((n >>> 6) &&& 63), 0x80 ||| (n &&& 63)]
  else
    [0xf0 ||| (n >>> 18), 0x80 ||| ((n >>> 12) &&& 63),
     0x80 ||| ((n >>> 6) &&& 63), 0x80 ||| (n &&& 63)]

def utf8Bytes (s : String) : List Nat := s.toList.flatMap (fun c => utf8EncodeChar c.toNat)

/-- HMAC (RFC 2104): keys longer than the 64-byte block are hashed, the
key is zero-padded, inner pad `0x36`, outer pad `0x5c`. -/
def hmacSha256 (key msg : List Nat) : List Nat :=
  let k0 := if 64 < key.length then sha256 key else key
  let kpad := k0 ++ List.replicate (64 - k0.length) 0
  sha256 ((kpad.map (fun b => b ^^^ 0x5c)) ++
    sha256 ((kpad.map (fun b => b ^^^ 0x36)) ++ msg))

/-- SHA-256 matches the FIPS 180-4 `"abc"` test vector. -/
theorem sha256_abc_vector :
    sha256 (utf8Bytes ("abc")) =
      [0xba, 0x78, 0x16, 0xbf, 0x8f, 0x01, 0xcf, 0xea,
       0x41, 0x41, 0x40, 0xde, 0x5d, 0xae, 0x22, 0x23,
       0xb0, 0x03, 0x61, 0xa3, 0x96, 0x17, 0x7a, 0x9c,
       0xb4, 0x10, 0xff, 0x61, 0xf2, 0x00, 0x15, 0xad] := by decide

def hexDigitChar (n : Nat) : Char :=
  if n < 10 then Char.ofNat (48 + n) else Char.ofNat (87 + n)

def hexEncodeChars (bs : List Nat) : List Char :=
  bs.flatMap (fun b => [hexDigitChar (b / 16), hexDigitChar (b % 16)])

/-- `.digest('hex')`: lowercase hex. -/
def hexEncode (bs : List Nat) : String := String.mk (hexEncodeChars bs)

/-- `Buffer.from(s, 'hex')`: decode pairs of hex digits, stopping at the
first invalid pair or odd tail. -/
def hexDecodeChars : List Char → List Nat
  | a :: b :: rest =>
    if isHexDigitJS a ∧ isHexDigitJS b then
      (hexDigitVal a * 16 + hexDigitVal b) :: hexDecodeChars rest
    else []
  | _ => []

/-- `crypto.timingSafeEqual`: throws (`none`) on length mismatch,
otherwise reports byte equality. -/
def timingSafeEqual (a b : List Nat) : Option Bool :=
  if a.length = b.length then some (decide (a = b)) else none

/-- `s.replace(pat, repl)` with a string pattern replaces only the first
occurrence.  `matchPat pat l` strips `pat` off the front of `l`. -/
def matchPat : List Char → List Char → Option (List Char)
  | [], l => some l
  | _ :: _, [] => none
  | p :: ps, c :: cs => if p = c then matchPat ps cs else none

def replaceFirstChars (cs pat repl : List Char) : List Char :=
  match cs with
  | [] => []
  | c :: rest =>
    match matchPat pat (c :: rest) with
    | some remainder => repl ++ remainder
    | none => c :: replaceFirstChars rest pat repl

def jsReplaceFirst (s pat repl : String) : String :=
  String.mk (replaceFirstChars s.toList pat.toList repl.toList)

/-- JSON string escaping used by `JSON.stringify`. -/
def jsonQuoteChar (c : Char) : List Char :=
  if c = '"' then ['\\', '"']
  else if c = '\\' then ['\\', '\\']
  else if c = '\n' then ['\\', 'n']
  else if c = '\r' then ['\\', 'r']
  else if c = '\t' then ['\\', 't']
  else if c = '\x08' then ['\\', 'b']
  else if c = '\x0c' then ['\\', 'f']
  else if c.toNat < 0x20 then
    ['\\', 'u', '0', '0', hexDigitChar (c.toNat / 16), hexDigitChar (c.toNat % 16)]
  else [c]

def jsonQuote (s : String) : String :=
  String.mk ('"' :: (s.toList.flatMap jsonQuoteChar ++ ['"']))

mutual

/-- `JSON.stringify(v)`: `undefined` at top level yields no string
(`none`); inside arrays it renders as `null`; object members with
`undefined` values are omitted. -/
def jsonStringify : JVal → Option String
  | .jundefined => none
  | .jnull => some ("null")
  | .jbool b => some (if b then ("true") else ("false"))
  | .jint n => some (toString n)
  | .jstr s => some (jsonQuote s)
  | .jarr xs =>
      some (("[") ++ String.intercalate (",") (jsonStringifyElems xs) ++ ("]"))
  | .jobj fs =>
      some (String.singleton lcurly ++
        String.intercalate (",") (jsonStringifyMembers fs) ++
        String.singleton rcurly)

def jsonStringifyElems : List JVal → List String
  | [] => []
  | v :: vs => ((jsonStringify v).getD ("null")) :: jsonStringifyElems vs

def jsonStringifyMembers : List (String × JVal) → List String
  | [] => []
  | (k, v) :: fs =>
    match jsonStringify v with
    | some sv => (jsonQuote k ++ (":") ++ sv) :: jsonStringifyMembers fs
    | none => jsonStringifyMembers fs

end

def hmacHex (secret payload : String) : String :=
  hexEncode (hmacSha256 (utf8Bytes secret) (utf8Bytes payload))

/-- A delivered callback request.  `body` is the JSON document the
receiver's body parser yields; for a payload produced by
`JSON.stringify` the round trip re-serializes to the identical string,
so the transmitted value is carried as the original `JVal`. -/
structure CallbackRequest where
  url : String
  signatureHeader : String
  timestampHeader : String
  body : JVal

/-- `NovelOrchestrator.sendCallback(callbackUrl, data)`: no-op when the
url or the configured secret is falsy; otherwise signs the serialized
payload with HMAC-SHA256, sending `X-Signature: sha256=<hex>` and
`X-Timestamp: Date.now()`.  The timestamp is not an input of the MAC. -/
def sendCallback (callbackSecret callbackUrl : String) (data : JVal) (nowMs : Int) :
    Option CallbackRequest :=
  if callbackUrl = ("") ∨ callbackSecret = ("") then none
  else
    match jsonStringify data with
    | none => none
    | some payload =>
      some {
        url := callbackUrl,
        signatureHeader := ("sha256=") ++ hmacHex callbackSecret payload,
        timestampHeader := toString nowMs,
        body := data }

inductive VerifyOutcome where
  | accepted : VerifyOutcome
  | unauthorized : String → VerifyOutcome
  | thrown : VerifyOutcome
deriving DecidableEq, Repr

/-- `validateHMACSignature(secret)` middleware: reject missing headers;
reject timestamps more than 5 minutes from now (a `NaN` timestamp passes
this check, since `NaN > 300000` is false); recompute the HMAC of the
re-serialized body, strip the `sha256=` prefix from the header, and
compare digests with `timingSafeEqual`, which throws on length
mismatch. -/
def validateHMACSignature (secret : String) (signatureHeader timestampHeader : Option String)
    (body : JVal) (nowMs : Int) : VerifyOutcome :=
  match signatureHeader, timestampHeader with
  | some sig, some ts =>
    let stale : Bool :=
      match parseIntStr ts with
      | some t => decide (300000 < (nowMs - t).natAbs)
      | none => false
    if stale then .unauthorized ("Request timestamp too old")
    else
      match jsonStringify body with
      | none => .thrown
      | some payload =>
        let expected := hmacHex secret payload
        let provided := jsReplaceFirst sig ("sha256=") ("")
        match timingSafeEqual (hexDecodeChars expected.toList)
            (hexDecodeChars provided.toList) with
        | none => .thrown
        | some true => .accepted
        | some false => .unauthorized ("Invalid signature")
  | _, _ => .unauthorized ("Missing signature or timestamp")

theorem matchPat_self_append (pat rest : List Char) :
    matchPat pat (pat ++ rest) = some rest := by
  induction pat with
  | nil => rfl
  | cons p ps ih => simp [matchPat, ih]

theorem replaceFirstChars_strip (p : Char) (ps rest : List Char) :
    replaceFirstChars ((p :: ps) ++ rest) (p :: ps) [] = rest := by
  have h : matchPat (p :: ps) (p :: (ps ++ rest)) = some rest := by
    have h0 := matchPat_self_append (p :: ps) rest
    simpa using h0
  unfold replaceFirstChars
  simp [h]

theorem timingSafeEqual_self (a : List Nat) : timingSafeEqual a a = some true := by
  simp [timingSafeEqual]

theorem hexDigit_roundtrip : ∀ n < 16,
    isHexDigitJS (hexDigitChar n) = true ∧ hexDigitVal (hexDigitChar n) = n := by
  decide

theorem hexDecode_encode (bs : List Nat) (hb : ∀ b ∈ bs, b < 256) :
    hexDecodeChars (hexEncodeChars bs) = bs := by
  induction bs with
  | nil => rfl
  | cons b t ih =>
    have hb256 : b < 256 := hb b (by simp)
    have h1 : b / 16 < 16 := by omega
    have h2 : b % 16 < 16 := by omega
    obtain ⟨ha1, ha2⟩ := hexDigit_roundtrip (b / 16) h1
    obtain ⟨hb1, hb2⟩ := hexDigit_roundtrip (b % 16) h2
    have henc : hexEncodeChars (b :: t) =
        hexDigitChar (b / 16) :: hexDigitChar (b % 16) :: hexEncodeChars t := by
      simp [hexEncodeChars]
    rw [henc]
    unfold hexDecodeChars
    rw [if_pos (by exact ⟨ha1, hb1⟩)]
    rw [ha2, hb2, ih (fun x hx => hb x (by simp [hx]))]
    congr 1
    omega

theorem compressStep_length (st : List Nat) (kt wt : Nat) (h : st.length = 8) :
    (compressStep st kt wt).length = 8 := by
  unfold compressStep
  split
  · rfl
  · exact h

theorem foldl_compressStep_length (ks ws : List Nat) (l : List Nat) (st : List Nat)
    (h : st.length = 8) :
    (l.foldl (fun s t => compressStep s (ks.getD t 0) (ws.getD t 0)) st).length = 8 := by
  induction l generalizing st with
  | nil => exact h
  | cons x xs ih => exact ih _ (compressStep_length _ _ _ h)

theorem compressBlock_length (h : List Nat) (block : List Nat) (hl : h.length = 8) :
    (compressBlock h block).length = 8 := by
  unfold compressBlock
  dsimp only
  rw [List.length_map, List.length_zip]
  rw [foldl_compressStep_length shaK (msgSchedule (bytesToWords block) 48) (List.range 64) h hl]
  omega

theorem foldl_compressBlock_length (blocks : List (List Nat)) (h : List Nat)
    (hl : h.length = 8) : (blocks.foldl compressBlock h).length = 8 := by
  induction blocks generalizing h with
  | nil => exact hl
  | cons b bs ih => exact ih _ (compressBlock_length _ _ hl)

theorem flatMapWords_length (hs : List Nat) :
    (hs.flatMap (fun w =>
      [(w >>> 24) % 256, (w >>> 16) % 256, (w >>> 8) % 256, w % 256])).length =
      4 * hs.length := by
  induction hs with
  | nil => rfl
  | cons w ws ih =>
    simp only [List.flatMap_cons, List.length_append, List.length_cons, ih,
      List.length_nil, List.length_cons]
    omega

theorem sha256_length (msg : List Nat) : (sha256 msg).length = 32 := by
  unfold sha256
  dsimp only
  rw [flatMapWords_length]
  rw [foldl_compressBlock_length (chunks64 (padMsg msg)) shaH0 (by rfl)]

theorem sha256_bytes_lt (msg : List Nat) : ∀ b ∈ sha256 msg, b < 256 := by
  intro b hb
  unfold sha256 at hb
  simp only [List.mem_flatMap] at hb
  obtain ⟨w, _, hw⟩ := hb
  simp at hw
  rcases hw with h | h | h | h <;> omega

theorem hmacSha256_length (key msg : List Nat) : (hmacSha256 key msg).length = 32 := by
  unfold hmacSha256
  exact sha256_length _

theorem hmacSha256_bytes_lt (key msg : List Nat) : ∀ b ∈ hmacSha256 key msg, b < 256 := by
  unfold hmacSha256
  exact sha256_bytes_lt _

theorem string_mk_toList (s : String) : String.mk s.toList = s := rfl

theorem jsReplaceFirst_stripSig (h : String) :
    jsReplaceFirst (("sha256=") ++ h) ("sha256=") ("") = h := by
  unfold jsReplaceFirst
  have happ : (("sha256=") ++ h).toList = ("sha256=").toList ++ h.toList := by
    simp [String.toList]
  rw [happ]
  have hs : ("sha256=").toList = 's' :: ['h', 'a', '2', '5', '6', '='] := rfl
  rw [hs]
  have h0 : ("").toList = ([] : List Char) := rfl
  rw [h0]
  have hstrip := replaceFirstChars_strip 's' ['h', 'a', '2', '5', '6', '='] h.toList
  simp only [List.cons_append, List.nil_append] at hstrip ⊢
  rw [hstrip]
  exact string_mk_toList h

theorem hexDecode_hexEncode_toList (bs : List Nat) (hb : ∀ b ∈ bs, b < 256) :
    hexDecodeChars (hexEncode bs).toList = bs := by
  have : (hexEncode bs).toList = hexEncodeChars bs := rfl
  rw [this, hexDecode_encode bs hb]

theorem verify_accepts_sent (secret url : String) (data : JVal) (nowSend : Int)
    (payload : String) (req : CallbackRequest) (ts : String) (tv nowRecv : Int)
    (hsec : secret ≠ ("")) (hurl : url ≠ (""))
    (hp : jsonStringify data = some payload)
    (hreq : sendCallback secret url data nowSend = some req)
    (hts : parseIntStr ts = some tv)
    (hfresh : (nowRecv - tv).natAbs ≤ 300000) :
    validateHMACSignature secret (some req.signatureHeader) (some ts) req.body nowRecv =
      .accepted := by
  unfold sendCallback at hreq
  rw [if_neg (by simp [hurl, hsec]), hp] at hreq
  simp only [Option.some.injEq] at hreq
  subst hreq
  unfold validateHMACSignature
  dsimp only
  rw [hts]
  have hnotstale : ¬ (300000 < (nowRecv - tv).natAbs) := by omega
  have hd : decide (300000 < (nowRecv - tv).natAbs) = false := decide_eq_false hnotstale
  simp [hd, hp, jsReplaceFirst_stripSig, timingSafeEqual_self]

theorem verify_rejects_stale (secret sig : String) (body : JVal) (ts : String)
    (tv nowRecv : Int) (hts : parseIntStr ts = some tv)
    (hstale : 300000 < (nowRecv - tv).natAbs) :
    validateHMACSignature secret (some sig) (some ts) body nowRecv =
      .unauthorized ("Request timestamp too old") := by
  unfold validateHMACSignature
  dsimp only
  rw [hts]
  have hd : decide (300000 < (nowRecv - tv).natAbs) = true := decide_eq_true hstale
  simp [hd]

theorem verify_rejects_digest (d : List Nat) (hd32 : d.length = 32)
    (hdlt : ∀ b ∈ d, b < 256) (secret2 : String) (body2 : JVal) (payload2 : String)
    (ts : String) (tv nowRecv : Int)
    (hp2 : jsonStringify body2 = some payload2)
    (hne : hmacSha256 (utf8Bytes secret2) (utf8Bytes payload2) ≠ d)
    (hts : parseIntStr ts = some tv)
    (hfresh : (nowRecv - tv).natAbs ≤ 300000) :
    validateHMACSignature secret2 (some (("sha256=") ++ hexEncode d)) (some ts)
      body2 nowRecv = .unauthorized ("Invalid signature") := by
  unfold validateHMACSignature
  dsimp only
  rw [hts]
  have hnotstale : ¬ (300000 < (nowRecv - tv).natAbs) := by omega
  have hd : decide (300000 < (nowRecv - tv).natAbs) = false := decide_eq_false hnotstale
  simp only [hd, Bool.false_eq_true, if_false, hp2, jsReplaceFirst_stripSig]
  unfold hmacHex
  rw [hexDecode_hexEncode_toList _ (hmacSha256_bytes_lt _ _)]
  rw [hexDecode_hexEncode_toList _ hdlt]
  unfold timingSafeEqual
  rw [if_pos (by rw [hmacSha256_length, hd32])]
  simp [hne]

/-- C3 (amended): a callback signed by `sendCallback` with secret S
verifies under `validateHMACSignature` with S for the sent timestamp and —
because the timestamp is not an input of the MAC — for every other
timestamp within the receiver's 5-minute freshness window; timestamps
outside the window are rejected as stale; and verification fails with
`Invalid signature` for any altered payload or altered secret whose
recomputed HMAC-SHA256 digest differs from the transmitted one. -/
theorem sendCallback_signature_spec :
    (∀ (secret url : String) (data : JVal) (nowSend : Int) (payload : String)
      (req : CallbackRequest) (ts : String) (tv nowRecv : Int),
      secret ≠ ("") → url ≠ ("") →
      jsonStringify data = some payload →
      sendCallback secret url data nowSend = some req →
      parseIntStr ts = some tv → (nowRecv - tv).natAbs ≤ 300000 →
      validateHMACSignature secret (some req.signatureHeader) (some ts) req.body
        nowRecv = .accepted)
    ∧ (∀ (secret sig : String) (body : JVal) (ts : String) (tv nowRecv : Int),
      parseIntStr ts = some tv → 300000 < (nowRecv - tv).natAbs →
      validateHMACSignature secret (some sig) (some ts) body nowRecv =
        .unauthorized ("Request timestamp too old"))
    ∧ (∀ (secret url : String) (data : JVal) (nowSend : Int) (payload : String)
      (req : CallbackRequest) (secret2 : String) (body2 : JVal) (payload2 : String)
      (ts : String) (tv nowRecv : Int),
      secret ≠ ("") → url ≠ ("") →
      jsonStringify data = some payload →
      sendCallback secret url data nowSend = some req →
      jsonStringify body2 = some payload2 →
      hmacSha256 (utf8Bytes secret2) (utf8Bytes payload2) ≠
        hmacSha256 (utf8Bytes secret) (utf8Bytes payload) →
      parseIntStr ts = some tv → (nowRecv - tv).natAbs ≤ 300000 →
      validateHMACSignature secret2 (some req.signatureHeader) (some ts) body2
        nowRecv = .unauthorized ("Invalid signature")) := by
  refine ⟨verify_accepts_sent, verify_rejects_stale, ?_⟩
  intro secret url data nowSend payload req secret2 body2 payload2 ts tv nowRecv
    hsec hurl hp hreq hp2 hne hts hfresh
  unfold sendCallback at hreq
  rw [if_neg (by simp [hurl, hsec]), hp] at hreq
  simp only [Option.some.injEq] at hreq
  subst hreq
  exact verify_rejects_digest _ (hmacSha256_length _ _) (hmacSha256_bytes_lt _ _)
    secret2 body2 payload2 ts tv nowRecv hp2 hne hts hfresh

/-- The callback payload used in the concrete signing scenarios. -/
def cbData : JVal := .jobj [(("success"), .jbool true)]

/-- C3, counterexample to the claim as stated: the signature produced for
timestamp 1000 also verifies under the altered timestamp `"2000"` — the
timestamp accompanies the callback but is not an input of the HMAC, so
altering it within the freshness window does not fail verification. -/
theorem sendCallback_timestamp_not_authenticated :
    ∃ req, sendCallback ("cb-secret") ("https://example.com/cb") cbData 1000 = some req ∧
      req.timestampHeader = ("1000") ∧ ("2000") ≠ ("1000") ∧
      validateHMACSignature ("cb-secret") (some req.signatureHeader) (some ("2000"))
        req.body 1000 = .accepted := by
  refine ⟨_, rfl, by decide, by decide, ?_⟩
  exact verify_accepts_sent ("cb-secret") ("https://example.com/cb") cbData 1000 _ _
    ("2000") 2000 1000 (by decide) (by decide) rfl rfl (by decide) (by decide)

/-- C3, witness: the sent timestamp verifies; a stale timestamp is
rejected; an altered secret yields `Invalid signature` — the main theorem
applied at concrete inputs. -/
theorem sendCallback_signature_spec_witness :
    (∃ req, sendCallback ("cb-secret") ("https://example.com/cb") cbData 1000 = some req ∧
      validateHMACSignature ("cb-secret") (some req.signatureHeader) (some ("1000"))
        req.body 1000 = .accepted) ∧
    (validateHMACSignature ("cb-secret") (some ("sha256=00")) (some ("999999999"))
      cbData 1000 = .unauthorized ("Request timestamp too old")) ∧
    (∃ req, sendCallback ("cb-secret") ("https://example.com/cb") cbData 1000 = some req ∧
      validateHMACSignature ("evil-secret") (some req.signatureHeader) (some ("1000"))
        req.body 1000 = .unauthorized ("Invalid signature")) := by
  refine ⟨⟨_, rfl, ?_⟩, ?_, ⟨_, rfl, ?_⟩⟩
  · exact sendCallback_signature_spec.1 ("cb-secret") ("https://example.com/cb") cbData
      1000 _ _ ("1000") 1000 1000 (by decide) (by decide) rfl rfl (by decide) (by decide)
  · exact sendCallback_signature_spec.2.1 ("cb-secret") ("sha256=00") cbData
      ("999999999") 999999999 1000 (by decide) (by decide)
  · exact sendCallback_signature_spec.2.2 ("cb-secret") ("https://example.com/cb") cbData
      1000 _ _ ("evil-secret") cbData _ ("1000") 1000 1000 (by decide) (by decide) rfl rfl
      rfl (by decide) (by decide) (by decide)

/-! ## Memory / Orchestration Layer (upload.js: `MemorySystem`,
`PineconeService`, with `RedisService` key helpers)

Every awaited store/provider call is recorded in an event trace as an
`issue`/`complete` pair.  Sequential `await`s produce
`issue a, complete a, issue b, complete b, …`: a later call is issued only
after the earlier one completed, which is exactly what distinguishes the
source's sequential awaits from a concurrent `Promise.all` join.  Redis is
modelled as a healthy in-memory key→JSON map (TTLs, connection loss and
real time are outside the embedding). -/

inductive MemOp where
  | neo4jGetNovelContext : MemOp
  | redisGetWorldState : MemOp
  | redisGetCachedChapter : MemOp
  | neo4jGetChapter : MemOp
  | redisCacheChapter : MemOp
  | embedText : MemOp
  | pineconeQuery : MemOp
  | redisGetCachedCharacter : MemOp
  | neo4jGetCharacter : MemOp
  | redisCacheCharacter : MemOp
deriving DecidableEq, Repr

inductive MemEvent where
  | issue : MemOp → MemEvent
  | complete : MemOp → MemEvent
deriving DecidableEq, Repr

/-- One awaited network call: issued, then completed before control
returns. -/
def call (op : MemOp) : List MemEvent := [.issue op, .complete op]

structure VecMeta where
  novelId : String
  chapterNumber : Option Int
  contentType : Option String
  content : Option String
deriving DecidableEq, Repr

structure Vector where
  id : String
  score : Int
  metadata : VecMeta
deriving DecidableEq, Repr

structure PineFilter where
  novelIdEq : Option String := none
  chapterEq : Option Int := none
  chapterNe : Option Int := none
  contentTypeEq : Option String := none
  contentTypeIn : Option (List String) := none

/-- Modelled from the spec: the external vector database engine applies
the metadata filter operators used by this code — equality on `novelId`,
`$eq`/`$ne` on `chapterNumber`, `$eq`/`$in` on `contentType` — and
returns up to `topK` matches (similarity ordering is abstracted as store
order; no claim depends on scores). -/
def matchesFilter (f : PineFilter) (m : VecMeta) : Bool :=
  (match f.novelIdEq with | some v => m.novelId = v | none => true) &&
  (match f.chapterEq with | some v => m.chapterNumber = some v | none => true) &&
  (match f.chapterNe with
    | some v => (match m.chapterNumber with | some c => c ≠ v | none => true)
    | none => true) &&
  (match f.contentTypeEq with | some v => m.contentType = some v | none => true) &&
  (match f.contentTypeIn with
    | some vs => (match m.contentType with | some ct => decide (ct ∈ vs) | none => false)
    | none => true)

def pineconeQueryModel (store : List Vector) (f : PineFilter) (topK : Nat) : List Vector :=
  (store.filter (fun v => matchesFilter f v.metadata)).take topK

structure SysState where
  graph : GraphDB
  redis : String → Option JVal
  vectors : String → List Vector
  embedOk : Bool

/-- `redisService.set(key, value, ttl)` on the healthy in-memory model. -/
def cacheInsert (st : SysState) (key : String) (v : JVal) : SysState :=
  { st with redis := fun k => if k = key then some v else st.redis k }

def characterKey (novelId characterId : String) : String :=
  ("novel:") ++ novelId ++ (":character:") ++ characterId

def chapterKey (novelId : String) (n : Int) : String :=
  ("novel:") ++ novelId ++ (":chapter:") ++ toString n

def worldStateKey (novelId : String) : String :=
  ("novel:") ++ novelId ++ (":worldstate")

def charNodeToJVal (c : CharNode) : JVal :=
  .jobj [(("id"), .jstr c.id), (("name"), .jstr c.name),
         (("description"), .jstr c.description)]

def locNodeToJVal (l : LocNode) : JVal :=
  .jobj [(("id"), .jstr l.id), (("name"), .jstr l.name),
         (("description"), .jstr l.description)]

def chapterNodeToJVal (ch : ChapterNode) : JVal :=
  .jobj [(("number"), .jint ch.number), (("title"), .jstr ch.title),
         (("content"), .jstr ch.content)]

/-- `{success:true, data, source}` or `{success:false, error:'not found'}`. -/
inductive FetchResult where
  | found : JVal → String → FetchResult
  | notFound : FetchResult

/-- `redisService.getCachedCharacter`: the cached JSON value, or `null` on
a miss. -/
def getCachedCharacter (st : SysState) (novelId characterId : String) : JVal :=
  match st.redis (characterKey novelId characterId) with
  | some v => v
  | none => .jnull

/-- `MemorySystem.getCharacter`: cache first (`if (cached)` is a
truthiness test), fall back to the Neo4j query, backfill the cache on a
database hit. -/
def getCharacter (st : SysState) (novelId characterId : String) :
    FetchResult × SysState × List MemEvent :=
  let cached := getCachedCharacter st novelId characterId
  if jsTruthy cached then
    (.found cached ("cache"), st, call .redisGetCachedCharacter)
  else
    match (st.graph.characters novelId).find? (fun c => c.id = characterId) with
    | some c =>
      let data := charNodeToJVal c
      ((.found data ("database")),
       cacheInsert st (characterKey novelId characterId) data,
       call .redisGetCachedCharacter ++ call .neo4jGetCharacter ++
         call .redisCacheCharacter)
    | none =>
      (.notFound, st, call .redisGetCachedCharacter ++ call .neo4jGetCharacter)

/-- `MemorySystem.getChapter`: same cache-first shape over the chapter
key. -/
def getChapter (st : SysState) (novelId : String) (n : Int) :
    FetchResult × SysState × List MemEvent :=
  let cached :=
    match st.redis (chapterKey novelId n) with
    | some v => v
    | none => .jnull
  if jsTruthy cached then
    (.found cached ("cache"), st, call .redisGetCachedChapter)
  else
    match (st.graph.chapters novelId).find? (fun ch => ch.number = n) with
    | some ch =>
      let data := chapterNodeToJVal ch
      ((.found data ("database")),
       cacheInsert st (chapterKey novelId n) data,
       call .redisGetCachedChapter ++ call .neo4jGetChapter ++ call .redisCacheChapter)
    | none =>
      (.notFound, st, call .redisGetCachedChapter ++ call .neo4jGetChapter)

structure SearchOptions where
  topK : Nat := 10
  chapterNumber : Option Int := none
  contentType : Option String := none

structure SearchMatch where
  id : String
  score : Int
  metadata : VecMeta
  content : String
  contentType : String
  chapterNumber : JVal

/-- `PineconeService.semanticSearch(searchText, novelId, options)`: the
options destructured are `topK` (default 10), `chapterNumber` (default
null, applied as an equality filter when truthy) and `contentType`; the
filter always requires `novelId`.  An embedding failure returns `[]`.
Result rows denormalize metadata (`'' `/`'unknown'`/`null` defaults, with
`chapterNumber || null` collapsing 0 to null). -/
def semanticSearch (st : SysState) (searchText novelId : String)
    (opts : SearchOptions) : List SearchMatch × List MemEvent :=
  if !st.embedOk then ([], call .embedText)
  else
    let f : PineFilter := {
      novelIdEq := some novelId,
      chapterEq :=
        (match opts.chapterNumber with
          | some k => if k ≠ 0 then some k else none
          | none => none),
      contentTypeEq :=
        (match opts.contentType with
          | some ct => if ct ≠ ("") then some ct else none
          | none => none) }
    let nsName := ("novel-") ++ novelId
    let results := pineconeQueryModel (st.vectors nsName) f opts.topK
    (results.map (fun v => {
        id := v.id,
        score := v.score,
        metadata := v.metadata,
        content := (v.metadata.content).getD (""),
        contentType := (v.metadata.contentType).getD ("unknown"),
        chapterNumber :=
          (match v.metadata.chapterNumber with
            | some n => if n ≠ 0 then .jint n else .jnull
            | none => .jnull) }),
     call .embedText ++ call .pineconeQuery)

structure SimilarOptions where
  excludeChapter : Option Int := none
  contentTypes : List String := [("chapter"), ("character"), ("location")]
  topK : Nat := 5

/-- `PineconeService.findSimilarContent`: unlike `semanticSearch`, this
one does support `excludeChapter`, applied as a `$ne` filter. -/
def findSimilarContent (st : SysState) (novelId referenceText : String)
    (opts : SimilarOptions) : List Vector × List MemEvent :=
  if !st.embedOk then ([], call .embedText)
  else
    let f : PineFilter := {
      novelIdEq := some novelId,
      chapterNe :=
        (match opts.excludeChapter with
          | some k => if k ≠ 0 then some k else none
          | none => none),
      contentTypeIn := some opts.contentTypes }
    (pineconeQueryModel (st.vectors (("novel-") ++ novelId)) f opts.topK,
     call .embedText ++ call .pineconeQuery)

/-- `redisService.getWorldState`: cached world state or `null`. -/
def getWorldState (st : SysState) (novelId : String) : JVal :=
  match st.redis (worldStateKey novelId) with
  | some v => v
  | none => .jnull

def vecMetaToJVal (m : VecMeta) : JVal :=
  .jobj ([(("novelId"), .jstr m.novelId)] ++
    (match m.chapterNumber with | some n => [(("chapterNumber"), .jint n)] | none => []) ++
    (match m.contentType with | some ct => [(("contentType"), .jstr ct)] | none => []) ++
    (match m.content with | some c => [(("content"), .jstr c)] | none => []))

def searchMatchToJVal (m : SearchMatch) : JVal :=
  .jobj [(("id"), .jstr m.id), (("score"), .jint m.score),
         (("metadata"), vecMetaToJVal m.metadata),
         (("content"), .jstr m.content), (("contentType"), .jstr m.contentType),
         (("chapterNumber"), m.chapterNumber)]

/-- `MemorySystem.buildGenerationContext(novelId, chapterNumber,
focusElements)`: sequentially awaits the Neo4j context, the Redis world
state, the previous chapter (only when `chapterNumber > 1`) and the
semantic search, then assembles the context object literal with `||`
defaults.  The caller passes `{ topK: 5, excludeChapter: chapterNumber }`
to `semanticSearch`, but `excludeChapter` is not among the option names
`semanticSearch` destructures, so the exclusion is silently dropped and
no chapter filter is applied. -/
def buildGenerationContext (st : SysState) (novelId : String) (chapterNumber : Int)
    (focusElements : String) (now : String) :
    List (String × JVal) × SysState × List MemEvent :=
  let novelContext := getNovelContext st.graph novelId (some chapterNumber)
  let worldState := getWorldState st novelId
  let prevStep : Option FetchResult × SysState × List MemEvent :=
    if chapterNumber > 1 then
      let r := getChapter st novelId (chapterNumber - 1)
      (some r.1, r.2.1, r.2.2)
    else (none, st, [])
  let searchQuery := focusElements ++ (" chapter ") ++ toString chapterNumber
  let search := semanticSearch prevStep.2.1 searchQuery novelId { topK := 5 }
  let context : List (String × JVal) := [
    (("novel"),
      jsOr (match novelContext with | some r => r.novel | none => .jundefined) (.jobj [])),
    (("characters"),
      jsOr (match novelContext with
        | some r => .jarr (r.characters.map charNodeToJVal)
        | none => .jundefined) (.jarr [])),
    (("locations"),
      jsOr (match novelContext with
        | some r => .jarr (r.locations.map locNodeToJVal)
        | none => .jundefined) (.jarr [])),
    (("worldState"), jsOr worldState (.jobj [])),
    (("previousChapter"),
      jsOr (match prevStep.1 with
        | some (.found d _) => d
        | some .notFound => .jundefined
        | none => .jundefined) .jnull),
    (("similarContent"), jsOr (.jarr ((search.1).map searchMatchToJVal)) (.jarr [])),
    (("focusElements"), .jstr focusElements),
    (("chapterNumber"), .jint chapterNumber),
    (("timestamp"), .jstr now)]
  (context, prevStep.2.1,
   call .neo4jGetNovelContext ++ call .redisGetWorldState ++ prevStep.2.2 ++ search.2)

/-- A small populated system: novel `nov` with one character, no cached
data, and one chapter-2 vector in the novel's namespace. -/
def demoGraph : GraphDB :=
  { novel := fun v => if v = ("nov") then some (.jobj [(("id"), .jstr ("nov"))]) else none,
    characters := fun v =>
      if v = ("nov") then [{ id := ("c1"), name := ("Ann"), description := ("hero") }]
      else [],
    locations := fun _ => [],
    chapters := fun _ => [],
    worldStateNode := fun _ => none,
    related := fun _ => [] }

def demoState : SysState :=
  { graph := demoGraph,
    redis := fun _ => none,
    vectors := fun ns =>
      if ns = ("novel-nov") then
        [{ id := ("chapter-2-chunk-0"), score := 90,
           metadata := { novelId := ("nov"), chapterNumber := some 2,
                         contentType := some ("chapter"), content := some ("dup text") } }]
      else [],
    embedOk := true }

/-- The formatted search row `semanticSearch` returns for the chapter-2
vector of `demoState`. -/
def demoMatch : SearchMatch :=
  { id := ("chapter-2-chunk-0"), score := 90,
    metadata := { novelId := ("nov"), chapterNumber := some 2,
                  contentType := some ("chapter"), content := some ("dup text") },
    content := ("dup text"), contentType := ("chapter"), chapterNumber := .jint 2 }

/-- C2: building the context for chapter 2 of `nov` returns a
`similarContent` entry whose `chapterNumber` metadata equals 2 — the
current chapter is not excluded, because `buildGenerationContext` passes
`excludeChapter` while `semanticSearch` only destructures
`topK`/`chapterNumber`/`contentType` and applies no chapter filter. -/
theorem buildGenerationContext_includes_current_chapter :
    ((buildGenerationContext demoState ("nov") 2 ("focus") ("T")).1.lookup
      ("similarContent") = some (.jarr [searchMatchToJVal demoMatch])) ∧
    demoMatch.metadata.chapterNumber = some 2 := ⟨rfl, rfl⟩

/-- C7: a character absent from the cache but present in the graph store
is returned from the store, written into the cache, and a second
identical call is answered from the cache with no Neo4j event in its
trace. -/
theorem getCharacter_cache_backfill (st : SysState) (novelId characterId : String)
    (c : CharNode)
    (hmiss : st.redis (characterKey novelId characterId) = none)
    (hfound : (st.graph.characters novelId).find? (fun x => x.id = characterId) = some c) :
    ∃ st2,
      getCharacter st novelId characterId =
        ((.found (charNodeToJVal c) ("database")), st2,
          call .redisGetCachedCharacter ++ call .neo4jGetCharacter ++
            call .redisCacheCharacter) ∧
      st2.redis (characterKey novelId characterId) = some (charNodeToJVal c) ∧
      getCharacter st2 novelId characterId =
        ((.found (charNodeToJVal c) ("cache")), st2, call .redisGetCachedCharacter) ∧
      MemEvent.issue .neo4jGetCharacter ∉ (getCharacter st2 novelId characterId).2.2 := by
  refine ⟨cacheInsert st (characterKey novelId characterId) (charNodeToJVal c),
    ?_, ?_, ?_, ?_⟩
  · unfold getCharacter getCachedCharacter
    rw [hmiss]
    simp only [jsTruthy, Bool.false_eq_true, if_false]
    rw [hfound]
  · simp [cacheInsert]
  · unfold getCharacter getCachedCharacter
    simp [cacheInsert, charNodeToJVal, jsTruthy]
  · unfold getCharacter getCachedCharacter
    simp [cacheInsert, charNodeToJVal, jsTruthy, call]

/-- C7, witness: the main theorem applied to `demoState`, whose cache is
empty and whose graph holds character `c1`. -/
theorem getCharacter_cache_backfill_witness :
    (demoState.redis (characterKey ("nov") ("c1")) = none) ∧
    ∃ st2,
      getCharacter demoState ("nov") ("c1") =
        ((.found (charNodeToJVal { id := ("c1"), name := ("Ann"), description := ("hero") })
          ("database")), st2,
          call .redisGetCachedCharacter ++ call .neo4jGetCharacter ++
            call .redisCacheCharacter) ∧
      getCharacter st2 ("nov") ("c1") =
        ((.found (charNodeToJVal { id := ("c1"), name := ("Ann"), description := ("hero") })
          ("cache")), st2, call .redisGetCachedCharacter) := by
  obtain ⟨st2, h1, h2, h3, h4⟩ := getCharacter_cache_backfill demoState ("nov") ("c1")
    { id := ("c1"), name := ("Ann"), description := ("hero") } rfl rfl
  exact ⟨rfl, st2, h1, h3⟩

theorem jsOr_not_undefined (a b : JVal) (hb : b ≠ JVal.jundefined) : jsOr a b ≠ JVal.jundefined := by
  unfold jsOr
  split
  · rename_i h
    intro heq
    rw [heq] at h
    simp [jsTruthy] at h
  · exact hb

/-- C8, counterexample to the claim as stated: building the context for
chapter 2 of `nov`, whose previous chapter does not exist, yields
`previousChapter = null` — an explicit `null`, not an empty list/object. -/
theorem buildGenerationContext_previousChapter_null :
    ((buildGenerationContext demoState ("nov") 2 ("focus") ("T")).1.lookup
      ("previousChapter") = some .jnull) ∧
    JVal.jnull ≠ .jobj [] ∧ JVal.jnull ≠ .jarr [] := by
  refine ⟨rfl, ?_, ?_⟩ <;> intro h <;> exact JVal.noConfusion h

/-- C8 (amended): the context object always carries exactly the nine
fields in order, none of them `undefined`; absent graph data becomes
`{}`/`[]`, an absent world state becomes `{}`, and an absent previous
chapter becomes `null` (not an empty object). -/
theorem buildGenerationContext_shape (st : SysState) (novelId : String)
    (chapterNumber : Int) (focusElements now : String) :
    ((buildGenerationContext st novelId chapterNumber focusElements now).1.map
        Prod.fst =
      [("novel"), ("characters"), ("locations"), ("worldState"), ("previousChapter"),
       ("similarContent"), ("focusElements"), ("chapterNumber"), ("timestamp")]) ∧
    (∀ p ∈ (buildGenerationContext st novelId chapterNumber focusElements now).1,
      p.2 ≠ JVal.jundefined) ∧
    (getNovelContext st.graph novelId (some chapterNumber) = none →
      ((buildGenerationContext st novelId chapterNumber focusElements now).1.lookup
        ("novel") = some (.jobj []) ∧
       (buildGenerationContext st novelId chapterNumber focusElements now).1.lookup
        ("characters") = some (.jarr []) ∧
       (buildGenerationContext st novelId chapterNumber focusElements now).1.lookup
        ("locations") = some (.jarr []))) ∧
    (st.redis (worldStateKey novelId) = none →
      (buildGenerationContext st novelId chapterNumber focusElements now).1.lookup
        ("worldState") = some (.jobj [])) ∧
    (chapterNumber ≤ 1 →
      (buildGenerationContext st novelId chapterNumber focusElements now).1.lookup
        ("previousChapter") = some .jnull) := by
  refine ⟨rfl, ?_, ?_, ?_, ?_⟩
  · intro p hp
    unfold buildGenerationContext at hp
    simp only [List.mem_cons, List.not_mem_nil, or_false] at hp
    rcases hp with rfl | rfl | rfl | rfl | rfl | rfl | rfl | rfl | rfl <;>
      simp only <;>
      first
        | exact jsOr_not_undefined _ _ (by intro h; exact JVal.noConfusion h)
        | (intro h; exact JVal.noConfusion h)
  · intro h
    unfold buildGenerationContext
    rw [h]
    exact ⟨rfl, rfl, rfl⟩
  · intro h
    unfold buildGenerationContext getWorldState
    rw [h]
    rfl
  · intro h
    unfold buildGenerationContext
    rw [if_neg (by omega)]
    rfl

/-- A system with nothing in any store. -/
def emptyState : SysState :=
  { graph := { novel := fun _ => none, characters := fun _ => [],
               locations := fun _ => [], chapters := fun _ => [],
               worldStateNode := fun _ => none, related := fun _ => [] },
    redis := fun _ => none,
    vectors := fun _ => [],
    embedOk := false }

/-- C8, witness: the shape theorem applied to the empty system at
chapter 1 — every absent-data default is visible at once. -/
theorem buildGenerationContext_shape_witness :
    ((buildGenerationContext emptyState ("x") 1 ("f") ("T")).1.lookup ("novel") =
      some (.jobj [])) ∧
    ((buildGenerationContext emptyState ("x") 1 ("f") ("T")).1.lookup ("characters") =
      some (.jarr [])) ∧
    ((buildGenerationContext emptyState ("x") 1 ("f") ("T")).1.lookup ("worldState") =
      some (.jobj [])) ∧
    ((buildGenerationContext emptyState ("x") 1 ("f") ("T")).1.lookup
      ("previousChapter") = some .jnull) := by
  have h := buildGenerationContext_shape emptyState ("x") 1 ("f") ("T")
  exact ⟨(h.2.2.1 rfl).1, (h.2.2.1 rfl).2.1, h.2.2.2.1 rfl, h.2.2.2.2 (by omega)⟩

/-- A trace is strictly sequential when it is a chain of
`issue op, complete op` pairs: every call completes before the next one
is issued.  A concurrent join would put two `issue`s before the first
`complete` and fail this check. -/
def sequentialTrace : List MemEvent → Bool
  | [] => true
  | .issue op :: .complete op2 :: rest => op = op2 && sequentialTrace rest
  | _ => false

theorem sequentialTrace_call (op : MemOp) (rest : List MemEvent) :
    sequentialTrace (call op ++ rest) = sequentialTrace rest := by
  simp [call, sequentialTrace]

theorem getChapter_trace_sequential (st : SysState) (novelId : String) (n : Int)
    (rest : List MemEvent) :
    sequentialTrace ((getChapter st novelId n).2.2 ++ rest) = sequentialTrace rest := by
  unfold getChapter
  dsimp only
  split
  · simp [sequentialTrace_call]
  · split <;> simp [sequentialTrace_call]

theorem semanticSearch_trace_sequential (st : SysState) (searchText novelId : String)
    (opts : SearchOptions) (rest : List MemEvent) :
    sequentialTrace ((semanticSearch st searchText novelId opts).2 ++ rest) =
      sequentialTrace rest := by
  unfold semanticSearch
  split <;> simp [sequentialTrace_call]

/-- C9 (amended): the context build issues its reads strictly
sequentially — the graph-context read completes before the world-state
read is issued, which completes before the previous-chapter read is
issued, and so on: the whole trace is a chain of
`issue, complete` pairs, never two reads in flight at once. -/
theorem buildGenerationContext_sequential (st : SysState) (novelId : String)
    (chapterNumber : Int) (focusElements now : String) :
    (∃ rest,
      (buildGenerationContext st novelId chapterNumber focusElements now).2.2 =
        .issue .neo4jGetNovelContext :: .complete .neo4jGetNovelContext ::
        .issue .redisGetWorldState :: .complete .redisGetWorldState :: rest) ∧
    sequentialTrace
      (buildGenerationContext st novelId chapterNumber focusElements now).2.2 = true := by
  constructor
  · exact ⟨_, rfl⟩
  · unfold buildGenerationContext
    dsimp only
    simp only [List.append_assoc]
    rw [sequentialTrace_call, sequentialTrace_call]
    by_cases hc : chapterNumber > 1
    · simp only [if_pos hc]
      rw [getChapter_trace_sequential]
      have h := semanticSearch_trace_sequential
        (getChapter st novelId (chapterNumber - 1)).2.1
        (focusElements ++ (" chapter ") ++ toString chapterNumber) novelId
        { topK := 5 } []
      simpa using h
    · simp only [if_neg hc, List.nil_append]
      have h := semanticSearch_trace_sequential st
        (focusElements ++ (" chapter ") ++ toString chapterNumber) novelId
        { topK := 5 } []
      simpa using h

/-- C9, counterexample to the claim as stated: in a concrete context
build, the world-state read is issued only after the graph-context read
completed — the independent reads are not issued concurrently. -/
theorem buildGenerationContext_not_concurrent :
    ¬ (((buildGenerationContext demoState ("nov") 2 ("focus") ("T")).2.2).indexOf
        (.issue .redisGetWorldState) <
       ((buildGenerationContext demoState ("nov") 2 ("focus") ("T")).2.2).indexOf
        (.complete .neo4jGetNovelContext)) := by decide
